import Mathlib

/-!
Verification development for the Trino driver of `sqltools-extra-drivers`
(`packages/driver.trino/src/ls/driver.ts`).

The driver is embedded shallowly:

* The engine client's callback protocol (`execute({query, data, callback})`)
  is modelled as an explicit trace: a list of data-callback events (each a
  row batch with its column descriptors, or an error) followed by the
  completion callback's outcome.  `executeQuery` folds the trace exactly as
  the promise executor in the source does: the first error rejects, rows are
  accumulated in order, `cols` is overwritten by each batch's column list.
* `query` iterates the parsed statements in order, producing one host result
  record per statement; `generateId` (uuid v4) and `this.getId()` are
  abstracted as parameters, and the per-statement engine behaviour is a
  function from the statement's position to its trace.
* Row values are opaque to the driver; they are modelled as strings.
* `prepareMessage` (from the external base driver) wraps a string into a
  message object with a timestamp; messages are modelled as the strings
  passed to it.
-/

namespace Trino

/-- A raw error delivered by the engine client; the driver only reads its
`message` field (and preserves the object itself in `rawError`). -/
structure Err where
  message : String
deriving DecidableEq, Repr

/-- Engine cell values are opaque to the driver; modelled as strings. -/
abbrev Value := String

/-- One column descriptor, as delivered by the engine client
(`{name, type}`; cf. `types.ts`: `Columns = Array<{name; type}>`). -/
structure Column where
  name : String
  type : String
deriving DecidableEq, Repr

/-- A row record: a JS object built by successive `data[key] = value`
assignments, modelled as an assignment-ordered association list. -/
abbrev Record := List (String × Value)

/-- The key set of a row record (the JS object's own property names). -/
def recordKeys (m : Record) : List String := m.map Prod.fst

/-- JS property assignment `data[k] = v`: overwrite in place if the key
exists, otherwise append (insertion order preserved). -/
def assign (m : Record) (k : String) (v : Value) : Record :=
  if m.any (fun p => p.1 = k) then
    m.map (fun p => if p.1 = k then (k, v) else p)
  else
    m ++ [(k, v)]

/-- One data-callback delivery: raw positional rows plus the column
descriptors reported with them. -/
structure Batch where
  rows : List (List Value)
  columns : List Column
deriving DecidableEq, Repr

/-- One firing of the `data` callback: either an error-first delivery or a
row batch. -/
inductive DataEvent where
  | err (e : Err)
  | batch (b : Batch)
deriving DecidableEq, Repr

/-- The observable behaviour of one `db.execute` call: the sequence of data
callbacks, then the completion callback (`none` = success, `some e` =
error-first completion). -/
structure ExecTrace where
  events : List DataEvent
  completion : Option Err
deriving DecidableEq, Repr

/-- Worker for the row materialization loop
`row.forEach((value, idx) => (data[columns[idx].name] = value))`:
values and column descriptors are consumed in lockstep (the JS loop indexes
`columns[idx]` for the idx-th value).  When the row is longer than the
column list, `columns[idx]` is `undefined` in JS and the access throws; the
theorems below only exercise well-formed batches, so that branch keeps the
record unchanged here. -/
def rowToRecordGo (data : Record) : List Column → List Value → Record
  | _, [] => data
  | [], _ :: _ => data
  | c :: cs, v :: vs => rowToRecordGo (assign data c.name v) cs vs

/-- Convert one raw positional row into a name-keyed record, starting from
the empty object (`const data = {}`). -/
def rowToRecord (columns : List Column) (row : List Value) : Record :=
  rowToRecordGo [] columns row

/-- Result tuple `(query, rows, columns)`, cf. `types.ts`:
`QueryResult = [Query, Rows, Columns]`. -/
abbrev QueryResult := String × List Record × List Column

/-- Processing of the data-callback sequence inside the promise executor of
`executeQuery`: the first error-first data callback rejects; a row batch
overwrites `cols` with its column list and appends its materialized rows to
`results`. -/
def processEvents : List DataEvent → List Record → List Column →
    Except Err (List Record × List Column)
  | [], results, cols => Except.ok (results, cols)
  | DataEvent.err e :: _, _, _ => Except.error e
  | DataEvent.batch b :: rest, results, cols =>
      let _ := cols
      processEvents rest (results ++ b.rows.map (rowToRecord b.columns)) b.columns

/-- Model of `executeQuery(db, query)`: run the engine call with the given trace;
reject with the first data-callback error, else with the completion error,
else resolve `[query, results, cols]`. -/
def executeQuery (q : String) (t : ExecTrace) : Except Err QueryResult :=
  match processEvents t.events [] [] with
  | Except.error e => Except.error e
  | Except.ok (results, cols) =>
      match t.completion with
      | some e => Except.error e
      | none => Except.ok (q, results, cols)

/-- The first error-first firing of the data callback, if any. -/
def dataError : List DataEvent → Option Err
  | [] => none
  | DataEvent.err e :: _ => some e
  | DataEvent.batch _ :: rest => dataError rest

/-- The error that settles the statement's promise: the first data-callback
error if one occurs, otherwise the completion callback's error. -/
def firstError (t : ExecTrace) : Option Err :=
  match dataError t.events with
  | some e => some e
  | none => t.completion

/-- Host result record (`NSDatabase.IResult` as populated by `query`).  On
the success path the source sets no `error`/`rawError` fields (they stay
undefined), modelled as `false`/`none`. -/
structure IResult where
  requestId : String
  resultId : String
  connId : String
  cols : List String
  results : List Record
  messages : List String
  query : String
  error : Bool
  rawError : Option Err
deriving DecidableEq, Repr

/-- Model of `error.message.replace(/\n/g, " ")`: every newline becomes a space. -/
def flattenNewlines (s : String) : String :=
  String.mk (s.data.map (fun c => if c = '\n' then ' ' else c))

/-- The success message text passed to `prepareMessage`. -/
def successMessage (n : Nat) : String :=
  "Successfully executed. " ++ toString n ++ " rows were affected."

/-- One iteration of the statement loop in `query`: translate the statement's
outcome into a host result record.  `fullQuery` is the whole input string
(the outer `query` parameter), `stmt` the parsed statement passed to
`executeQuery`. -/
def queryStmt (connId requestId resultId : String) (fullQuery stmt : String)
    (t : ExecTrace) : IResult :=
  match executeQuery stmt t with
  | Except.ok (q, rows, columns) =>
      { requestId := requestId
        resultId := resultId
        connId := connId
        cols := columns.map Column.name
        results := rows
        messages := [successMessage rows.length]
        query := q
        error := false
        rawError := none }
  | Except.error e =>
      { connId := connId
        requestId := requestId
        resultId := resultId
        cols := []
        messages := [flattenNewlines e.message]
        error := true
        rawError := some e
        query := fullQuery
        results := [] }

/-- Single-quote character (avoids quote literals in the scanner below). -/
def squote : Char := Char.ofNat 39

/-- Double-quote character. -/
def dquote : Char := Char.ofNat 34

/-- Scanner states of the statement splitter. -/
inductive SplitState where
  | normal
  | inSingle
  | inDouble
  | inLineComment
  | inBlockComment
deriving DecidableEq, Repr

/-- Modelled from the spec: the statement splitter.  `QueryParser.statements`
is imported by the driver from `./parser`, whose source file is not part of
this repository snapshot; only its contract is specified: split a raw string
into semicolon-separated statements, ignoring semicolons inside
string/quoted literals and comments.  The scanner below realises that
contract: single- and double-quoted literals, `--` line comments and
`/* */` block comments suppress splitting; every other semicolon cuts. -/
def splitRaw : SplitState → List Char → List Char → List (List Char)
  | _, cur, [] => [cur.reverse]
  | SplitState.normal, cur, c :: rest =>
      if c = ';' then cur.reverse :: splitRaw SplitState.normal [] rest
      else if c = squote then splitRaw SplitState.inSingle (c :: cur) rest
      else if c = dquote then splitRaw SplitState.inDouble (c :: cur) rest
      else
        match c, rest with
        | '-', '-' :: rest2 =>
            splitRaw SplitState.inLineComment ('-' :: '-' :: cur) rest2
        | '/', '*' :: rest2 =>
            splitRaw SplitState.inBlockComment ('*' :: '/' :: cur) rest2
        | c, rest => splitRaw SplitState.normal (c :: cur) rest
  | SplitState.inSingle, cur, c :: rest =>
      if c = squote then splitRaw SplitState.normal (c :: cur) rest
      else splitRaw SplitState.inSingle (c :: cur) rest
  | SplitState.inDouble, cur, c :: rest =>
      if c = dquote then splitRaw SplitState.normal (c :: cur) rest
      else splitRaw SplitState.inDouble (c :: cur) rest
  | SplitState.inLineComment, cur, c :: rest =>
      if c = '\n' then splitRaw SplitState.normal (c :: cur) rest
      else splitRaw SplitState.inLineComment (c :: cur) rest
  | SplitState.inBlockComment, cur, c :: rest =>
      match c, rest with
      | '*', '/' :: rest2 => splitRaw SplitState.normal ('/' :: '*' :: cur) rest2
      | c, rest => splitRaw SplitState.inBlockComment (c :: cur) rest

/-- SQL-relevant whitespace, for trimming statement fragments. -/
def isWSChar (c : Char) : Bool :=
  c = ' ' || c = '\t' || c = '\n' || c = '\r'

/-- Trim leading and trailing whitespace from a character list. -/
def trimChars (cs : List Char) : List Char :=
  ((cs.dropWhile isWSChar).reverse.dropWhile isWSChar).reverse

namespace QueryParser

/-- Modelled from the spec: `QueryParser.statements` — the ordered sequence
of trimmed, non-empty statements of the raw input. -/
def statements (s : String) : List String :=
  (((splitRaw SplitState.normal [] s.data).map trimChars).filter
      (fun cs => cs ≠ [])).map (fun cs => String.mk cs)

end QueryParser

/-- The statement loop of `query`, carrying the position of the next
statement (used to index the per-statement id supply and engine trace). -/
def queryGo (connId requestId : String) (gen : Nat → String)
    (engine : Nat → ExecTrace) (fullQuery : String) :
    Nat → List String → List IResult
  | _, [] => []
  | i, stmt :: rest =>
      queryStmt connId requestId (gen i) fullQuery stmt (engine i) ::
        queryGo connId requestId gen engine fullQuery (i + 1) rest

/-- Model of `query(query, opt)`: parse the input into statements and execute them
sequentially in parse order, one host result record each.  `gen` abstracts
the uuid supply (`generateId()`, one fresh id per loop iteration), `engine`
the engine client's behaviour for each statement position. -/
def query (connId requestId : String) (gen : Nat → String)
    (engine : Nat → ExecTrace) (input : String) : List IResult :=
  queryGo connId requestId gen engine input 0 (QueryParser.statements input)

/-- Stored credentials consumed by `open()`; `password` is `none` when the
host supplies no password field (JS `undefined`). -/
structure Credentials where
  host : String
  port : Nat
  catalog : String
  schema : String
  user : String
  password : Option String
deriving DecidableEq, Repr

/-- The options object handed to `new presto.Client(connOptions)`. -/
structure ConnOptions where
  host : String
  port : Nat
  catalog : String
  schema : String
  user : String
  engine : String
  source : String
  basic_auth : Option (String × String)
deriving DecidableEq, Repr

/-- JS truthiness of `this.credentials.password` (undefined and the empty
string are falsy). -/
def passwordTruthy : Option String → Bool
  | none => false
  | some p => p ≠ ""

/-- Build `connOptions` from the stored credentials, adding `basic_auth`
only when a truthy password is present. -/
def buildConnOptions (c : Credentials) : ConnOptions :=
  let conn : ConnOptions :=
    { host := c.host
      port := c.port
      catalog := c.catalog
      schema := c.schema
      user := c.user
      engine := "trino"
      source := "sqltools-driver"
      basic_auth := none }
  match c.password with
  | some p =>
      if p ≠ "" then { conn with basic_auth := some (c.user, p) } else conn
  | none => conn

/-- An engine client handle; `id` models JS object identity, so two
constructions yield distinguishable instances. -/
structure Client where
  id : Nat
  options : ConnOptions
deriving DecidableEq, Repr

/-- The driver's mutable state: the memoized `this.connection` reference.
In the source it holds `Promise.resolve(conn)` — a promise that is always
already resolved — so it is modelled as the resolved handle itself. -/
structure DriverState where
  connection : Option Client
deriving DecidableEq, Repr

/-- Model of `open()`: return the memoized handle if present; otherwise build the
options, construct a client (`mk` models `new presto.Client`, which may
throw, i.e. return `Except.error`), memoize and return it; a construction
error is returned as a rejected promise and nothing is memoized. -/
def openConn (mk : ConnOptions → Except Err Client) (creds : Credentials)
    (st : DriverState) : DriverState × Except Err Client :=
  match st.connection with
  | some c => (st, Except.ok c)
  | none =>
      match mk (buildConnOptions creds) with
      | Except.ok conn => ({ st with connection := some conn }, Except.ok conn)
      | Except.error e => (st, Except.error e)

/-- Model of `close()`: no-op when no handle is memoized; otherwise await the (always
resolved) handle and null the reference.  It never rejects, which the total
return type expresses. -/
def closeConn (st : DriverState) : DriverState :=
  match st.connection with
  | none => st
  | some _ => { st with connection := none }

/-- The explorer item tags (`ContextValue`) the driver inspects; `COLUMN`
and the remaining host tags fall through to the default branch. -/
inductive ContextValue where
  | CONNECTION
  | CONNECTED_CONNECTION
  | SCHEMA
  | TABLE
  | VIEW
  | RESOURCE_GROUP
  | COLUMN
  | DATABASE
  | NO_CHILD
deriving DecidableEq, Repr

/-- An explorer tree item as far as the driver reads it: its tag and, for
resource groups, the child-type tag. -/
structure ExplorerItem where
  type : ContextValue
  childType : Option ContextValue
deriving DecidableEq, Repr

/-- The catalog-introspection queries the driver can issue (the `queries`
module is consumed as a black box; only which query runs matters here). -/
inductive CatalogQuery where
  | fetchSchemas (database : String)
  | fetchColumns (item : ExplorerItem)
  | fetchTables (parent : ExplorerItem)
  | fetchViews (parent : ExplorerItem)
deriving DecidableEq, Repr

/-- A static explorer child node, as returned for a schema item. -/
structure ChildItem where
  label : String
  type : ContextValue
  iconId : String
  childType : ContextValue
deriving DecidableEq, Repr

/-- Outcome of `getChildrenForItem`: either run a catalog query (whose rows
become the children) or return a literal list of nodes. -/
inductive Children where
  | runQuery (q : CatalogQuery)
  | items (xs : List ChildItem)
deriving DecidableEq, Repr

/-- Model of `getChildrenForGroup({parent, item})`: dispatch on the resource group's
child type; anything else yields the empty list. -/
def getChildrenForGroup (item parent : ExplorerItem) : Children :=
  match item.childType with
  | some ContextValue.TABLE => Children.runQuery (CatalogQuery.fetchTables parent)
  | some ContextValue.VIEW => Children.runQuery (CatalogQuery.fetchViews parent)
  | _ => Children.items []

/-- Model of `getChildrenForItem({item, parent})`: the flat tag dispatch of the
explorer adapter.  `catalog` is `this.credentials.catalog`. -/
def getChildrenForItem (catalog : String) (item parent : ExplorerItem) :
    Children :=
  match item.type with
  | ContextValue.CONNECTION => Children.runQuery (CatalogQuery.fetchSchemas catalog)
  | ContextValue.CONNECTED_CONNECTION =>
      Children.runQuery (CatalogQuery.fetchSchemas catalog)
  | ContextValue.SCHEMA =>
      Children.items
        [{ label := "Tables"
           type := ContextValue.RESOURCE_GROUP
           iconId := "folder"
           childType := ContextValue.TABLE },
         { label := "Views"
           type := ContextValue.RESOURCE_GROUP
           iconId := "folder"
           childType := ContextValue.VIEW }]
  | ContextValue.TABLE => Children.runQuery (CatalogQuery.fetchColumns item)
  | ContextValue.VIEW => Children.runQuery (CatalogQuery.fetchColumns item)
  | ContextValue.RESOURCE_GROUP => getChildrenForGroup item parent
  | _ => Children.items []

/-! ### Lemmas about trimming -/

theorem trimChars_eq_rdropWhile (cs : List Char) :
    trimChars cs = List.rdropWhile isWSChar (cs.dropWhile isWSChar) := rfl

theorem dropWhile_trimChars (cs : List Char) :
    (trimChars cs).dropWhile isWSChar = trimChars cs := by
  rcases ht : trimChars cs with _ | ⟨x, t2⟩
  · simp
  · have hpre : trimChars cs <+: cs.dropWhile isWSChar := by
      rw [trimChars_eq_rdropWhile]
      exact List.rdropWhile_prefix _ _
    rw [ht] at hpre
    obtain ⟨s, hs⟩ := hpre
    have hl : 0 < (cs.dropWhile isWSChar).length := by
      rw [← hs]
      simp
    have hx := List.dropWhile_get_zero_not isWSChar cs hl
    have h1 : (List.dropWhile isWSChar cs).get? 0 = some x := by
      rw [← hs]
      rfl
    have h2 : (List.dropWhile isWSChar cs).get? 0 =
        some ((List.dropWhile isWSChar cs).get ⟨0, hl⟩) := List.get?_eq_get hl
    rw [h1] at h2
    have h3 : x = (List.dropWhile isWSChar cs).get ⟨0, hl⟩ := by
      injection h2
    rw [← h3] at hx
    simp only [Bool.not_eq_true] at hx
    simp [List.dropWhile, hx]

theorem trimChars_idem (cs : List Char) :
    trimChars (trimChars cs) = trimChars cs := by
  rw [trimChars_eq_rdropWhile (trimChars cs), dropWhile_trimChars,
    trimChars_eq_rdropWhile cs, List.rdropWhile_idempotent]

/-- Claim C5: the statement parser yields an ordered sequence of trimmed,
non-empty statement strings; a semicolon inside a quoted literal does not
split (`SELECT ';' AS x` is one statement), a trailing semicolon produces no
extra empty statement (`SELECT 1;` is one statement), and empty or
whitespace-only input yields the empty sequence.  The parser is modelled
from the spec (its source file is not part of the repository snapshot). -/
theorem C5_statement_parser_contract :
    (∀ s : String, ∀ t ∈ QueryParser.statements s,
        t ≠ "" ∧ trimChars t.data = t.data) ∧
    QueryParser.statements "SELECT ';' AS x" = ["SELECT ';' AS x"] ∧
    QueryParser.statements "SELECT 1;" = ["SELECT 1"] ∧
    QueryParser.statements "" = [] ∧
    QueryParser.statements "  \t\n " = [] := by
  refine ⟨?_, by decide, by decide, by decide, by decide⟩
  intro s t ht
  unfold QueryParser.statements at ht
  obtain ⟨cs, hcs, rfl⟩ := List.mem_map.1 ht
  have hmem := List.mem_filter.1 hcs
  have hne : cs ≠ [] := by
    have := hmem.2
    simpa using this
  obtain ⟨cs0, _, hcs0⟩ := List.mem_map.1 hmem.1
  constructor
  · intro h
    apply hne
    have hd := congrArg String.data h
    simpa using hd
  · show trimChars cs = cs
    rw [← hcs0, trimChars_idem]

/-- Witness for C5 at a concrete input. -/
theorem C5_statement_parser_contract_witness :
    "SELECT 1" ∈ QueryParser.statements "SELECT 1; SELECT 2" ∧
    ("SELECT 1" : String) ≠ "" ∧
    trimChars ("SELECT 1" : String).data = ("SELECT 1" : String).data :=
  ⟨by decide,
    C5_statement_parser_contract.1 "SELECT 1; SELECT 2" "SELECT 1" (by decide)⟩

/-! ### Lemmas about the statement loop of `query` -/

theorem queryGo_length (connId requestId : String) (gen : Nat → String)
    (engine : Nat → ExecTrace) (fullQuery : String) :
    ∀ (stmts : List String) (i : Nat),
      (queryGo connId requestId gen engine fullQuery i stmts).length =
        stmts.length := by
  intro stmts
  induction stmts with
  | nil => intro i; rfl
  | cons s rest ih =>
      intro i
      simp [queryGo, ih (i + 1)]

theorem queryGo_get? (connId requestId : String) (gen : Nat → String)
    (engine : Nat → ExecTrace) (fullQuery : String) :
    ∀ (stmts : List String) (i j : Nat),
      (queryGo connId requestId gen engine fullQuery i stmts).get? j =
        (stmts.get? j).map
          (fun stmt =>
            queryStmt connId requestId (gen (i + j)) fullQuery stmt
              (engine (i + j))) := by
  intro stmts
  induction stmts with
  | nil => intro i j; rfl
  | cons s rest ih =>
      intro i j
      cases j with
      | zero => simp [queryGo]
      | succ j =>
          have harith : i + 1 + j = i + (j + 1) := by omega
          simp only [queryGo, List.get?_cons_succ, ih (i + 1) j, harith]

/-- Claim C1: `query` returns one host result record per parsed statement,
in parse order: the result list has the same length as the parsed statement
list, and its `i`-th record is the translation of the `i`-th statement's
outcome. -/
theorem C1_one_record_per_statement_in_order (connId requestId : String)
    (gen : Nat → String) (engine : Nat → ExecTrace) (input : String) :
    (query connId requestId gen engine input).length =
      (QueryParser.statements input).length ∧
    ∀ i : Nat,
      (query connId requestId gen engine input).get? i =
        ((QueryParser.statements input).get? i).map
          (fun stmt =>
            queryStmt connId requestId (gen i) input stmt (engine i)) := by
  constructor
  · exact queryGo_length connId requestId gen engine input _ 0
  · intro i
    have h := queryGo_get? connId requestId gen engine input
      (QueryParser.statements input) 0 i
    simpa using h

/-! ### Lemmas about `executeQuery` -/

theorem processEvents_error_of_dataError :
    ∀ (evs : List DataEvent) (res : List Record) (cols : List Column)
      (e : Err), dataError evs = some e →
      processEvents evs res cols = Except.error e := by
  intro evs
  induction evs with
  | nil => intro res cols e h; cases h
  | cons ev rest ih =>
      intro res cols e h
      cases ev with
      | err e2 =>
          simp only [dataError] at h
          cases h
          rfl
      | batch b =>
          simp only [dataError] at h
          exact ih _ _ e h

theorem processEvents_ok_of_no_dataError :
    ∀ (evs : List DataEvent) (res : List Record) (cols : List Column),
      dataError evs = none →
      ∃ rows colsF, processEvents evs res cols = Except.ok (rows, colsF) := by
  intro evs
  induction evs with
  | nil => intro res cols _; exact ⟨res, cols, rfl⟩
  | cons ev rest ih =>
      intro res cols h
      cases ev with
      | err e2 => simp [dataError] at h
      | batch b =>
          simp only [dataError] at h
          exact ih _ _ h

theorem executeQuery_error_of_firstError (q : String) (t : ExecTrace)
    (e : Err) (h : firstError t = some e) :
    executeQuery q t = Except.error e := by
  unfold firstError at h
  unfold executeQuery
  cases hd : dataError t.events with
  | some e2 =>
      rw [hd] at h
      cases h
      rw [processEvents_error_of_dataError t.events [] [] e hd]
  | none =>
      rw [hd] at h
      have h2 : t.completion = some e := h
      obtain ⟨rows, colsF, hok⟩ := processEvents_ok_of_no_dataError t.events [] [] hd
      rw [hok, h2]

theorem executeQuery_ok_query (q q2 : String) (t : ExecTrace)
    (rows : List Record) (cols : List Column)
    (h : executeQuery q t = Except.ok (q2, rows, cols)) : q2 = q := by
  unfold executeQuery at h
  cases hpe : processEvents t.events [] [] with
  | error e => rw [hpe] at h; cases h
  | ok pr =>
      rw [hpe] at h
      cases hc : t.completion with
      | some e => rw [hc] at h; cases h
      | none =>
          rw [hc] at h
          cases h
          rfl

/-- Claim C3: when a statement fails (first data-callback error, or
completion-callback error), its host result record has `error = true`,
empty rows and columns, the raw error preserved, the whole input as `query`,
and a message equal to the error's text with newlines flattened to spaces —
with no embedded newline left. -/
theorem C3_failure_record (connId requestId resultId fullQuery stmt : String)
    (t : ExecTrace) (e : Err) (h : firstError t = some e) :
    queryStmt connId requestId resultId fullQuery stmt t =
      { requestId := requestId
        resultId := resultId
        connId := connId
        cols := []
        results := []
        messages := [flattenNewlines e.message]
        query := fullQuery
        error := true
        rawError := some e } ∧
    '\n' ∉ (flattenNewlines e.message).data := by
  constructor
  · unfold queryStmt
    rw [executeQuery_error_of_firstError stmt t e h]
  · intro hmem
    simp only [flattenNewlines, List.mem_map] at hmem
    obtain ⟨c, _, hc⟩ := hmem
    by_cases hcn : c = '\n'
    · rw [if_pos hcn] at hc
      exact absurd hc (by decide)
    · rw [if_neg hcn] at hc
      exact hcn hc

/-- Witness for C3 at a concrete failing trace. -/
theorem C3_failure_record_witness :
    firstError ⟨[], some ⟨"boom\nx"⟩⟩ = some ⟨"boom\nx"⟩ ∧
    queryStmt "c" "r" "id" "SELECT 1; SELECT 2" "SELECT 1"
        ⟨[], some ⟨"boom\nx"⟩⟩ =
      { requestId := "r"
        resultId := "id"
        connId := "c"
        cols := []
        results := []
        messages := [flattenNewlines ("boom\nx" : String)]
        query := "SELECT 1; SELECT 2"
        error := true
        rawError := some ⟨"boom\nx"⟩ } ∧
    '\n' ∉ (flattenNewlines ("boom\nx" : String)).data :=
  ⟨rfl,
    C3_failure_record "c" "r" "id" "SELECT 1; SELECT 2" "SELECT 1"
      ⟨[], some ⟨"boom\nx"⟩⟩ ⟨"boom\nx"⟩ rfl⟩

/-- Claim C4: per-statement errors never escape `query` — the loop always
yields one record per parsed statement; a failing statement yields an
error-flagged record (raw error preserved, no rows), and the record of any
other position depends only on that position's own engine behaviour, so one
statement's failure cannot change another statement's record. -/
theorem C4_error_containment_and_independence (connId requestId : String)
    (gen : Nat → String) (engine engine2 : Nat → ExecTrace) (input : String)
    (i j : Nat) (e : Err)
    (hj : engine j = engine2 j)
    (hi : firstError (engine i) = some e)
    (hilt : i < (QueryParser.statements input).length) :
    (query connId requestId gen engine input).length =
      (QueryParser.statements input).length ∧
    (query connId requestId gen engine input).get? j =
      (query connId requestId gen engine2 input).get? j ∧
    ∃ r : IResult,
      (query connId requestId gen engine input).get? i = some r ∧
      r.error = true ∧ r.rawError = some e ∧ r.results = [] := by
  refine ⟨queryGo_length connId requestId gen engine input _ 0, ?_, ?_⟩
  · unfold query
    rw [queryGo_get? connId requestId gen engine input
        (QueryParser.statements input) 0 j,
      queryGo_get? connId requestId gen engine2 input
        (QueryParser.statements input) 0 j]
    simp only [Nat.zero_add]
    rw [hj]
  · refine ⟨queryStmt connId requestId (gen i) input
      ((QueryParser.statements input).get ⟨i, hilt⟩) (engine i), ?_, ?_⟩
    · unfold query
      rw [queryGo_get? connId requestId gen engine input
          (QueryParser.statements input) 0 i,
        List.get?_eq_get hilt]
      simp
    · have hrec : queryStmt connId requestId (gen i) input
          ((QueryParser.statements input).get ⟨i, hilt⟩) (engine i) =
          { requestId := requestId
            resultId := gen i
            connId := connId
            cols := []
            results := []
            messages := [flattenNewlines e.message]
            query := input
            error := true
            rawError := some e } := by
        unfold queryStmt
        rw [executeQuery_error_of_firstError _ _ e hi]
      rw [hrec]
      exact ⟨rfl, rfl, rfl⟩

/-- A per-statement engine behaviour whose first statement fails. -/
def engFail : Nat → ExecTrace :=
  fun n => if n = 0 then ⟨[], some ⟨"boom"⟩⟩ else ⟨[], none⟩

/-- A per-statement engine behaviour where every statement succeeds with no
data batches. -/
def engOk : Nat → ExecTrace := fun _ => ⟨[], none⟩

/-- Witness for C4 at a concrete two-statement input whose first statement
fails. -/
theorem C4_error_containment_and_independence_witness :
    (query "c" "r" (fun _ => "id") engFail "SELECT 1; SELECT 2").length =
      (QueryParser.statements "SELECT 1; SELECT 2").length ∧
    (query "c" "r" (fun _ => "id") engFail "SELECT 1; SELECT 2").get? 1 =
      (query "c" "r" (fun _ => "id") engOk "SELECT 1; SELECT 2").get? 1 ∧
    ∃ r : IResult,
      (query "c" "r" (fun _ => "id") engFail "SELECT 1; SELECT 2").get? 0 =
        some r ∧
      r.error = true ∧ r.rawError = some ⟨"boom"⟩ ∧ r.results = [] :=
  C4_error_containment_and_independence "c" "r" (fun _ => "id") engFail engOk
    "SELECT 1; SELECT 2" 0 1 ⟨"boom"⟩ (by decide) rfl (by decide)

/-- Claim C10: a failing statement's record carries the whole original input
in its `query` field (the catch branch closes over the outer `query`
parameter), while a successful statement's record carries the individual
parsed statement. -/
theorem C10_query_field_full_vs_statement (connId requestId : String)
    (gen : Nat → String) (engine : Nat → ExecTrace) (input : String)
    (i : Nat) (r : IResult)
    (h : (query connId requestId gen engine input).get? i = some r) :
    (r.error = true → r.query = input) ∧
    (r.error = false →
      (QueryParser.statements input).get? i = some r.query) := by
  unfold query at h
  rw [queryGo_get? connId requestId gen engine input
      (QueryParser.statements input) 0 i] at h
  simp only [Nat.zero_add] at h
  cases hs : (QueryParser.statements input).get? i with
  | none => rw [hs] at h; cases h
  | some stmt =>
      rw [hs] at h
      simp only [Option.map_some'] at h
      have hr : r = queryStmt connId requestId (gen i) input stmt (engine i) := by
        injection h with h2
        exact h2.symm
      subst hr
      cases hx : executeQuery stmt (engine i) with
      | ok res =>
          obtain ⟨q2, rows, cols⟩ := res
          have hq : q2 = stmt := executeQuery_ok_query stmt q2 (engine i) rows cols hx
          have hrec : queryStmt connId requestId (gen i) input stmt (engine i) =
              { requestId := requestId
                resultId := gen i
                connId := connId
                cols := cols.map Column.name
                results := rows
                messages := [successMessage rows.length]
                query := q2
                error := false
                rawError := none } := by
            unfold queryStmt
            rw [hx]
          rw [hrec]
          constructor
          · intro hcontra
            cases hcontra
          · intro _
            exact congrArg some hq.symm
      | error e =>
          have hrec : queryStmt connId requestId (gen i) input stmt (engine i) =
              { requestId := requestId
                resultId := gen i
                connId := connId
                cols := []
                results := []
                messages := [flattenNewlines e.message]
                query := input
                error := true
                rawError := some e } := by
            unfold queryStmt
            rw [hx]
          rw [hrec]
          constructor
          · intro _
            rfl
          · intro hcontra
            cases hcontra

/-- The host result record produced for the failing first statement of
`engFail`. -/
def sampleFailRecord : IResult :=
  { requestId := "r"
    resultId := "id"
    connId := "c"
    cols := []
    results := []
    messages := ["boom"]
    query := "SELECT 1; SELECT 2"
    error := true
    rawError := some ⟨"boom"⟩ }

/-- Witness for C10 at a concrete failing statement. -/
theorem C10_query_field_full_vs_statement_witness :
    (query "c" "r" (fun _ => "id") engFail "SELECT 1; SELECT 2").get? 0 =
      some sampleFailRecord ∧
    ((sampleFailRecord.error = true →
        sampleFailRecord.query = "SELECT 1; SELECT 2") ∧
      (sampleFailRecord.error = false →
        (QueryParser.statements "SELECT 1; SELECT 2").get? 0 =
          some sampleFailRecord.query)) :=
  ⟨by decide,
    C10_query_field_full_vs_statement "c" "r" (fun _ => "id") engFail
      "SELECT 1; SELECT 2" 0 sampleFailRecord (by decide)⟩

/-! ### Lemmas about row materialization and result column names -/

theorem mem_recordKeys_assign (m : Record) (kk k : String) (v : Value) :
    k ∈ recordKeys (assign m kk v) ↔ k ∈ recordKeys m ∨ k = kk := by
  unfold assign recordKeys
  by_cases h : m.any (fun p => p.1 = kk)
  · rw [if_pos h]
    rw [List.any_eq_true] at h
    obtain ⟨p0, hp0, hp0k⟩ := h
    simp only [decide_eq_true_eq] at hp0k
    simp only [List.map_map, List.mem_map, Function.comp]
    constructor
    · rintro ⟨p, hp, hpk⟩
      by_cases hc : p.1 = kk
      · rw [if_pos hc] at hpk
        right
        exact hpk.symm
      · rw [if_neg hc] at hpk
        left
        exact ⟨p, hp, hpk⟩
    · rintro (⟨p, hp, hpk⟩ | rfl)
      · by_cases hc : p.1 = kk
        · exact ⟨p0, hp0, by rw [if_pos hp0k]; rw [← hpk, hc]⟩
        · exact ⟨p, hp, by rw [if_neg hc]; exact hpk⟩
      · exact ⟨p0, hp0, by rw [if_pos hp0k]⟩
  · rw [if_neg h]
    constructor
    · intro hk
      rcases List.mem_map.1 hk with ⟨p, hp, hpk⟩
      rcases List.mem_append.1 hp with hp2 | hp2
      · exact Or.inl (List.mem_map.2 ⟨p, hp2, hpk⟩)
      · rw [List.mem_singleton] at hp2
        subst hp2
        exact Or.inr hpk.symm
    · rintro (hk | rfl)
      · rcases List.mem_map.1 hk with ⟨p, hp, hpk⟩
        exact List.mem_map.2 ⟨p, List.mem_append.2 (Or.inl hp), hpk⟩
      · exact List.mem_map.2
          ⟨(k, v), List.mem_append.2 (Or.inr (List.mem_singleton.2 rfl)), rfl⟩

theorem mem_recordKeys_rowToRecordGo (k : String) :
    ∀ (cols : List Column) (row : List Value) (data : Record),
      row.length = cols.length →
      (k ∈ recordKeys (rowToRecordGo data cols row) ↔
        k ∈ recordKeys data ∨ k ∈ cols.map Column.name) := by
  intro cols
  induction cols with
  | nil =>
      intro row data h
      cases row with
      | nil => simp [rowToRecordGo]
      | cons v vs => simp at h
  | cons c cs ih =>
      intro row data h
      cases row with
      | nil => simp at h
      | cons v vs =>
          have hlen : vs.length = cs.length := by
            simpa using h
          show k ∈ recordKeys (rowToRecordGo (assign data c.name v) cs vs) ↔ _
          rw [ih vs _ hlen, mem_recordKeys_assign]
          simp only [List.map_cons, List.mem_cons]
          tauto

/-- The accumulation invariant of the data-callback loop: under the
assumption that every delivered batch reports the same column list `cs` and
rows of matching width, a successful pass leaves the accumulator unchanged,
or ends with `cs` as the final column list and every accumulated record
either pre-existing or keyed exactly by the names of `cs`. -/
theorem processEvents_keys (cs : List Column) :
    ∀ (evs : List DataEvent) (res : List Record) (cols0 : List Column)
      (rows : List Record) (colsF : List Column),
      (∀ b : Batch, DataEvent.batch b ∈ evs →
        b.columns = cs ∧ ∀ row ∈ b.rows, row.length = cs.length) →
      processEvents evs res cols0 = Except.ok (rows, colsF) →
      (rows = res ∧ colsF = cols0) ∨
      (colsF = cs ∧ ∀ rec ∈ rows, rec ∈ res ∨
        (∀ k : String, k ∈ recordKeys rec ↔ k ∈ cs.map Column.name)) := by
  intro evs
  induction evs with
  | nil =>
      intro res cols0 rows colsF _ hok
      cases hok
      exact Or.inl ⟨rfl, rfl⟩
  | cons ev rest ih =>
      intro res cols0 rows colsF hb hok
      cases ev with
      | err e => cases hok
      | batch b =>
          have hbb := hb b (List.mem_cons_self _ _)
          have hbrest : ∀ b2 : Batch, DataEvent.batch b2 ∈ rest →
              b2.columns = cs ∧ ∀ row ∈ b2.rows, row.length = cs.length :=
            fun b2 hm => hb b2 (List.mem_cons_of_mem _ hm)
          have hok2 : processEvents rest
              (res ++ b.rows.map (rowToRecord b.columns)) b.columns =
              Except.ok (rows, colsF) := hok
          have hkey : ∀ rec ∈ res ++ b.rows.map (rowToRecord b.columns),
              rec ∈ res ∨
              (∀ k : String, k ∈ recordKeys rec ↔ k ∈ cs.map Column.name) := by
            intro rec hrec
            rcases List.mem_append.1 hrec with hrec | hrec
            · exact Or.inl hrec
            · right
              obtain ⟨row, hrow, rfl⟩ := List.mem_map.1 hrec
              intro k
              have hlen : row.length = cs.length := hbb.2 row hrow
              have := mem_recordKeys_rowToRecordGo k b.columns row []
                (by rw [hbb.1]; exact hlen)
              rw [hbb.1] at this
              simpa [rowToRecord, hbb.1, recordKeys] using this
          rcases ih _ _ _ _ hbrest hok2 with ⟨hrows, hcols⟩ | ⟨hcols, hall⟩
          · right
            refine ⟨by rw [hcols, hbb.1], ?_⟩
            intro rec hrec
            rw [hrows] at hrec
            exact hkey rec hrec
          · right
            refine ⟨hcols, ?_⟩
            intro rec hrec
            rcases hall rec hrec with hin | hk
            · exact hkey rec hin
            · exact Or.inr hk

/-- Claim C2: on a successful execution whose batches all report one and the
same column list with rows of matching width, every row record of the
resolved result has key set equal to the set of column names in the result's
column-descriptor list. -/
theorem C2_row_key_sets_match_columns (q q2 : String) (t : ExecTrace)
    (rows : List Record) (cols cs : List Column)
    (hb : ∀ b : Batch, DataEvent.batch b ∈ t.events →
      b.columns = cs ∧ ∀ row ∈ b.rows, row.length = cs.length)
    (hok : executeQuery q t = Except.ok (q2, rows, cols)) :
    ∀ rec ∈ rows, ∀ k : String,
      k ∈ recordKeys rec ↔ k ∈ cols.map Column.name := by
  unfold executeQuery at hok
  cases hpe : processEvents t.events [] [] with
  | error e => rw [hpe] at hok; cases hok
  | ok pr =>
      obtain ⟨rows0, cols0⟩ := pr
      rw [hpe] at hok
      cases hc : t.completion with
      | some e => rw [hc] at hok; cases hok
      | none =>
          rw [hc] at hok
          cases hok
          rcases processEvents_keys cs t.events [] [] rows cols hb hpe with
            ⟨hrows, _⟩ | ⟨hcols, hall⟩
          · rw [hrows]
            intro rec hrec
            cases hrec
          · intro rec hrec k
            rcases hall rec hrec with hin | hk
            · cases hin
            · rw [hcols]
              exact hk k

/-- Witness for C2 at a concrete one-batch trace. -/
theorem C2_row_key_sets_match_columns_witness :
    executeQuery "SELECT 1"
        ⟨[DataEvent.batch ⟨[["1"]], [⟨"x", "integer"⟩]⟩], none⟩ =
      Except.ok ("SELECT 1", [[("x", "1")]], [⟨"x", "integer"⟩]) ∧
    ∀ rec ∈ ([[("x", "1")]] : List Record), ∀ k : String,
      k ∈ recordKeys rec ↔
        k ∈ ([⟨"x", "integer"⟩] : List Column).map Column.name :=
  ⟨rfl,
    C2_row_key_sets_match_columns "SELECT 1" "SELECT 1"
      ⟨[DataEvent.batch ⟨[["1"]], [⟨"x", "integer"⟩]⟩], none⟩
      [[("x", "1")]] [⟨"x", "integer"⟩] [⟨"x", "integer"⟩]
      (by
        intro b hm
        rw [List.mem_singleton] at hm
        cases hm
        exact ⟨rfl, by decide⟩)
      rfl⟩

/-! ### Connection wrapper claims -/

/-- Claim C6: `open()` with a memoized handle returns that handle unchanged,
for any constructor (so no client is constructed); and whenever an `open()`
call yields a handle, a second `open()` on the resulting state (with any
constructor and credentials) yields the very same handle instance and leaves
the state unchanged. -/
theorem C6_open_memoized (mk mk2 : ConnOptions → Except Err Client)
    (creds creds2 : Credentials) (st st2 : DriverState) (c : Client) :
    (st.connection = some c →
      openConn mk creds st = (st, Except.ok c)) ∧
    (openConn mk creds st = (st2, Except.ok c) →
      openConn mk2 creds2 st2 = (st2, Except.ok c)) := by
  constructor
  · intro h
    unfold openConn
    rw [h]
  · intro h
    unfold openConn at h
    cases hc : st.connection with
    | some c0 =>
        rw [hc] at h
        cases h
        unfold openConn
        rw [hc]
    | none =>
        rw [hc] at h
        cases hmk : mk (buildConnOptions creds) with
        | ok conn =>
            rw [hmk] at h
            cases h
            unfold openConn
            rfl
        | error e =>
            rw [hmk] at h
            cases h

/-- A construction function that always succeeds, tagging the client with
instance id 0. -/
def mkClientOk : ConnOptions → Except Err Client :=
  fun o => Except.ok ⟨0, o⟩

/-- A construction function that always throws. -/
def mkClientThrow : ConnOptions → Except Err Client :=
  fun _ => Except.error ⟨"constructor failed"⟩

/-- Concrete credentials for the witnesses. -/
def sampleCreds : Credentials :=
  { host := "localhost"
    port := 8080
    catalog := "hive"
    schema := "default"
    user := "u"
    password := none }

/-- Witness for C6: a second `open()` after a successful first one returns
the same handle instance. -/
theorem C6_open_memoized_witness :
    openConn mkClientOk sampleCreds ⟨none⟩ =
      (⟨some ⟨0, buildConnOptions sampleCreds⟩⟩,
        Except.ok ⟨0, buildConnOptions sampleCreds⟩) ∧
    openConn mkClientThrow sampleCreds
        ⟨some ⟨0, buildConnOptions sampleCreds⟩⟩ =
      (⟨some ⟨0, buildConnOptions sampleCreds⟩⟩,
        Except.ok ⟨0, buildConnOptions sampleCreds⟩) :=
  ⟨rfl,
    (C6_open_memoized mkClientOk mkClientThrow sampleCreds sampleCreds
      ⟨none⟩ ⟨some ⟨0, buildConnOptions sampleCreds⟩⟩
      ⟨0, buildConnOptions sampleCreds⟩).2 rfl⟩

/-- Claim C7: when the constructor throws synchronously and no handle is
memoized, `open()` returns the error as a rejected promise with the state
unchanged (nothing memoized), so a later `open()` with a succeeding
constructor performs the construction. -/
theorem C7_open_construction_failure (mk mk2 : ConnOptions → Except Err Client)
    (creds : Credentials) (st : DriverState) (e : Err) (c : Client)
    (hnone : st.connection = none)
    (hmk : mk (buildConnOptions creds) = Except.error e) :
    openConn mk creds st = (st, Except.error e) ∧
    (mk2 (buildConnOptions creds) = Except.ok c →
      openConn mk2 creds st = (⟨some c⟩, Except.ok c)) := by
  constructor
  · unfold openConn
    rw [hnone, hmk]
  · intro h2
    unfold openConn
    rw [hnone, h2]

/-- Witness for C7: a throwing constructor leaves nothing memoized and a
retry with a working constructor succeeds. -/
theorem C7_open_construction_failure_witness :
    openConn mkClientThrow sampleCreds ⟨none⟩ =
      (⟨none⟩, Except.error ⟨"constructor failed"⟩) ∧
    (mkClientOk (buildConnOptions sampleCreds) =
        Except.ok ⟨0, buildConnOptions sampleCreds⟩ →
      openConn mkClientOk sampleCreds ⟨none⟩ =
        (⟨some ⟨0, buildConnOptions sampleCreds⟩⟩,
          Except.ok ⟨0, buildConnOptions sampleCreds⟩)) :=
  C7_open_construction_failure mkClientThrow mkClientOk sampleCreds ⟨none⟩
    ⟨"constructor failed"⟩ ⟨0, buildConnOptions sampleCreds⟩ rfl rfl

/-- Claim C8: `close()` on a never-opened connection is a no-op that
resolves (it is a total function, so it always "resolves without error"),
and `close()` on an opened connection nulls the memoized reference. -/
theorem C8_close_semantics (st : DriverState) (c : Client) :
    (st.connection = none → closeConn st = st) ∧
    (st.connection = some c → (closeConn st).connection = none) := by
  constructor
  · intro h
    unfold closeConn
    rw [h]
  · intro h
    unfold closeConn
    rw [h]

/-- Witness for C8 at concrete states. -/
theorem C8_close_semantics_witness :
    closeConn ⟨none⟩ = (⟨none⟩ : DriverState) ∧
    (closeConn ⟨some ⟨0, buildConnOptions sampleCreds⟩⟩).connection = none :=
  ⟨(C8_close_semantics ⟨none⟩ ⟨0, buildConnOptions sampleCreds⟩).1 rfl,
    (C8_close_semantics ⟨some ⟨0, buildConnOptions sampleCreds⟩⟩
      ⟨0, buildConnOptions sampleCreds⟩).2 rfl⟩

/-! ### Explorer adapter claim -/

/-- Claim C9: for a schema item, `getChildrenForItem` returns exactly the
two static resource-group nodes "Tables" and "Views" (child types table and
view); for any item tag outside the six handled ones it returns the empty
sequence. -/
theorem C9_children_schema_and_default (catalog : String)
    (item parent : ExplorerItem) :
    (item.type = ContextValue.SCHEMA →
      getChildrenForItem catalog item parent =
        Children.items
          [⟨"Tables", ContextValue.RESOURCE_GROUP, "folder", ContextValue.TABLE⟩,
           ⟨"Views", ContextValue.RESOURCE_GROUP, "folder", ContextValue.VIEW⟩]) ∧
    (item.type ∉ [ContextValue.CONNECTION, ContextValue.CONNECTED_CONNECTION,
        ContextValue.SCHEMA, ContextValue.TABLE, ContextValue.VIEW,
        ContextValue.RESOURCE_GROUP] →
      getChildrenForItem catalog item parent = Children.items []) := by
  constructor
  · intro h
    unfold getChildrenForItem
    rw [h]
  · intro h
    unfold getChildrenForItem
    cases htype : item.type <;> simp [htype] at h ⊢

/-- Witness for C9 at a schema item and a column item. -/
theorem C9_children_schema_and_default_witness :
    getChildrenForItem "hive" ⟨ContextValue.SCHEMA, none⟩
        ⟨ContextValue.SCHEMA, none⟩ =
      Children.items
        [⟨"Tables", ContextValue.RESOURCE_GROUP, "folder", ContextValue.TABLE⟩,
         ⟨"Views", ContextValue.RESOURCE_GROUP, "folder", ContextValue.VIEW⟩] ∧
    getChildrenForItem "hive" ⟨ContextValue.COLUMN, none⟩
        ⟨ContextValue.SCHEMA, none⟩ =
      Children.items [] :=
  ⟨(C9_children_schema_and_default "hive" ⟨ContextValue.SCHEMA, none⟩
      ⟨ContextValue.SCHEMA, none⟩).1 rfl,
    (C9_children_schema_and_default "hive" ⟨ContextValue.COLUMN, none⟩
      ⟨ContextValue.SCHEMA, none⟩).2 (by decide)⟩

end Trino
